import Mathlib

/-!
Verification of the angular characterization control code.

The Python sources are shallowly embedded over the rationals.  Machine
floats are modelled as exact rationals; every read of a stage position or
status flag is drawn from an explicit environment stream indexed by a
tick counter, so the real-time polling loops become fuel-bounded
recursions.  Hardware side effects (jog messages, relative moves) are
recorded in the returned values where a claim mentions them.
-/

/-- Model of numpy.isclose: absolute(a - b) is at most atol + rtol * absolute(b). -/
def np_isclose (a b rtol atol : ℚ) : Bool :=
  decide (|a - b| ≤ atol + rtol * |b|)

/-- Model of Python int() applied to a rational: truncation toward zero. -/
def pyInt (x : ℚ) : ℤ :=
  if 0 ≤ x then ⌊x⌋ else ⌈x⌉

/-- Embedding of convert_signed from procedures.py: for a non-negative
position it returns pos - (pos // 180) * 360, where // is Python float
floor division; a negative position is returned unchanged. -/
def convert_signed (pos : ℚ) : ℚ :=
  if 0 ≤ pos then pos - (⌊pos / 180⌋ : ℚ) * 360 else pos

/-- Environment for a single motor stage: the position returned by the
t-th read of stage.pos. -/
structure StageEnv where
  pos : Nat → ℚ

/-- Embedding of the polling loop inside move_stage_to (procedures.py):
starting with check = 0, read the position; exit as soon as
np.isclose(pos, targ, atol=0.01) holds; otherwise increment check, sleep
one second, and give up once check reaches 20.  The fuel argument is the
number of remaining reads (20 at entry); the result is the tick after the
loop. -/
def move_poll (env : StageEnv) (targ : ℚ) : Nat → Nat → Nat
  | 0, t => t
  | fuel + 1, t =>
    if np_isclose (env.pos t) targ (1 / 100000) (1 / 100) then t + 1
    else move_poll env targ fuel (t + 1)

/-- Embedding of move_stage_to from procedures.py.  Each attempt reads
the position, computes offset = targ_pos - convert_signed(pos), issues a
relative move by that offset (recorded in the returned list), runs the
20-poll loop, reads the position once for the debug log and once for the
final check, and returns success if that final read is np.isclose to the
target; a failed attempt reads the position once more for its warning log
before retrying.  When all attempts fail the RuntimeError is modelled as
a false first component.  Arguments after the target are the remaining
retries and the current tick. -/
def move_stage_to (env : StageEnv) (targ : ℚ) : Nat → Nat → Bool × List ℚ
  | 0, _ => (false, [])
  | n + 1, t =>
    let init_pos := convert_signed (env.pos t)
    let offset := targ - init_pos
    let t1 := move_poll env targ 20 (t + 1)
    if np_isclose (env.pos (t1 + 1)) targ (1 / 100000) (1 / 100) then
      (true, [offset])
    else
      let r := move_stage_to env targ n (t1 + 3)
      (r.1, offset :: r.2)

/-- Modelled from the spec: the per-attempt polling loop of moveStageTo,
polling once per second until the convergence test holds, for at most the
given number of remaining polls (20 at entry).  The convergence test is a
parameter so that the claimed strict 0.01 tolerance and the np.isclose
tolerance can both be compared against the code.  Returns the tick after
the loop. -/
def specPoll (close : ℚ → ℚ → Bool) (env : StageEnv) (targ : ℚ) : Nat → Nat → Nat
  | 0, t => t
  | polls + 1, t =>
    if close (env.pos t) targ then t + 1
    else specPoll close env targ polls (t + 1)

/-- Modelled from the spec: moveStageTo as the spec describes it — for up
to the given number of attempts, compute offset = target minus the
normalized current position, issue a relative move by that offset, poll
up to 20 times, and return success when the convergence test holds at the
post-poll check; otherwise log the timeout (consuming one more position
read) and retry the whole attempt, recomputing the offset from the
then-current position; raise (false) when every attempt is exhausted. -/
def moveStageToSpec (close : ℚ → ℚ → Bool) (env : StageEnv) (targ : ℚ) : Nat → Nat → Bool × List ℚ
  | 0, _ => (false, [])
  | n + 1, t =>
    let offset := targ - convert_signed (env.pos t)
    let t1 := specPoll close env targ 20 (t + 1)
    if close (env.pos (t1 + 1)) targ then (true, [offset])
    else
      let r := moveStageToSpec close env targ n (t1 + 3)
      (r.1, offset :: r.2)

/-- The convergence test the code actually uses: np.isclose with
atol = 0.01 and the default rtol = 1e-5. -/
def isclose_tol (p targ : ℚ) : Bool :=
  np_isclose p targ (1 / 100000) (1 / 100)

/-- The convergence test as the claim words it: absolute difference at
most 0.01. -/
def strict_tol (p targ : ℚ) : Bool :=
  decide (|p - targ| ≤ 1 / 100)

/-- Environment for level_axes: homed-status streams and position streams
for the roll and pitch stages. -/
structure LevelEnv where
  roll_homed : Nat → Bool
  pitch_homed : Nat → Bool
  roll_pos : Nat → ℚ
  pitch_pos : Nat → ℚ

/-- Embedding of the homing wait loop in level_axes (procedures.py):
the source condition is `not roll_stage.status_homed or not
roll_stage.status_homed` — the roll flag is read twice and the pitch flag
is never consulted.  Up to 20 one-second waits (the fuel); returns the
exit tick. -/
def home_wait (roll_homed pitch_homed : Nat → Bool) : Nat → Nat → Nat
  | 0, t => t
  | fuel + 1, t =>
    if !roll_homed t || !roll_homed t then home_wait roll_homed pitch_homed fuel (t + 1)
    else t

/-- Record of what level_axes does: the home directions programmed on
each axis, the tick at which the homing wait loop exits, and the outcome
of the two final move_stage_to calls (roll to offset 45, pitch to offset
-32.7). -/
structure LevelResult where
  rollHomeDir : Nat
  pitchHomeDir : Nat
  homeWaitExit : Nat
  rollMove : Bool × List ℚ
  pitchMove : Bool × List ℚ

/-- Embedding of level_axes from procedures.py: set home direction 2 on
roll and 1 on pitch, issue the home moves, run the homing wait loop, then
move the roll axis to 45 and the pitch axis to -32.7 via move_stage_to. -/
def level_axes (env : LevelEnv) : LevelResult :=
  { rollHomeDir := 2
    pitchHomeDir := 1
    homeWaitExit := home_wait env.roll_homed env.pitch_homed 20 0
    rollMove := move_stage_to ⟨env.roll_pos⟩ 45 3 0
    pitchMove := move_stage_to ⟨env.pitch_pos⟩ (-327 / 10) 3 0 }

/-- The programmed state of the Keithley 6487 after configure_sweep
(keithley.py): sweep start, the stop value actually written (sign flipped
for the Anode polarity, absent for an unrecognized polarity), step, delay
in seconds, and the arm count. -/
structure SweepConfig where
  sweepStart : ℚ
  sweepStop : Option ℚ
  sweepStep : ℚ
  sweepDelay : ℚ
  armCount : ℤ

/-- Embedding of Keithley6487.configure_sweep: the arm count written is
int(abs((stop - start) / step) + 1).  The nplc argument only configures
the current-measurement integration time and does not enter the
programmed sweep. -/
def configure_sweep (start stop step delay nplc : ℚ) (polarity : String) : SweepConfig :=
  { sweepStart := start
    sweepStop :=
      if polarity = "Anode" then some (-stop)
      else if polarity = "Cathode" then some stop
      else none
    sweepStep := step
    sweepDelay := delay / 1000
    armCount := pyInt (|(stop - start) / step| + 1) }

/-- State of the picoammeter as seen by the sweep-capture tail: whether
the trigger model is armed, and the buffer of stored readings (each a
4-element record, as drained by TRAC:DATA? with FORM:ELEM ALL). -/
structure Keithley6487State where
  armed : Bool
  buf : List (ℚ × ℚ × ℚ × ℚ)

/-- Embedding of the ABOR write: disarms the trigger model. -/
def abort_trigger (k : Keithley6487State) : Keithley6487State :=
  { k with armed := false }

/-- Embedding of the TRAC:POIN:ACT? query: the number of stored readings. -/
def buffer_size (k : Keithley6487State) : Nat :=
  k.buf.length

/-- Embedding of the TRAC:DATA? query: the stored readings. -/
def trace_data (k : Keithley6487State) : List (ℚ × ℚ × ℚ × ℚ) :=
  k.buf

/-- Embedding of np.linspace(start, stop, n) with the default inclusive
endpoint: n values start + i * (stop - start) / (n - 1); for n = 1 numpy
returns the single value start, and for n = 0 the empty array. -/
def np_linspace (start stop : ℚ) : Nat → List ℚ
  | 0 => []
  | 1 => [start]
  | n + 2 =>
    (List.range (n + 2)).map fun i : Nat => start + (i : ℚ) * ((stop - start) / ((n : ℚ) + 1))

/-- Outcome of the sweep-capture tail of VelocityAngleSweep.execute:
the instrument state after ABOR, the sample count read back, the drained
records, and the reconstructed roll-angle array. -/
structure CaptureResult where
  instr : Keithley6487State
  nSamples : Nat
  samples : List (ℚ × ℚ × ℚ × ℚ)
  rollAngles : List ℚ

/-- Embedding of procedure_velocity.py lines 294-318: after the ramp,
write ABOR, read the actual buffer size n, drain the n stored records,
and reconstruct the per-sample roll angle as np.linspace(start, stop, n). -/
def sweep_capture (k : Keithley6487State) (start stop : ℚ) : CaptureResult :=
  let k1 := abort_trigger k
  let n := buffer_size k1
  { instr := k1
    nSamples := n
    samples := trace_data k1
    rollAngles := np_linspace start stop n }

/-- The roll-axis mechanical zero offset used throughout the procedures. -/
def roll_offset : ℚ := 45

/-- The pitch-axis mechanical zero offset used throughout the procedures. -/
def pitch_offset : ℚ := -327 / 10

/-- Model of np.max over a possibly negative-infinite running peak:
none stands for the starting value -np.inf. -/
def np_max (o : Option ℚ) (x : ℚ) : ℚ :=
  match o with
  | none => x
  | some p => max p x

/-- Embedding of the Python jog-direction flip jog_dir % 2 + 1 from
PeakFinding.execute. -/
def pyFlip (d : Nat) : Nat :=
  d % 2 + 1

/-- State of the PeakFinding.execute search loop at the top of an
iteration.  jogRoll and jogPitch are the jog step sizes last programmed
on each axis by set_jog_step; max_meas is the Max Samples parameter. -/
structure PFState where
  stageIsRoll : Bool
  step_size : ℚ
  curr_tol : ℚ
  i : Nat
  n_reverse : Nat
  n_refine : Nat
  k : Nat
  jog_dir : Nat
  prev_meas : ℚ
  peak_meas : Option ℚ
  peak_loc : ℚ × ℚ
  jogRoll : ℚ
  jogPitch : ℚ
  max_meas : Nat

/-- Observations the environment supplies to one iteration of the
peak-search loop: the new current measurement, the two stage positions
read for the angle record, and the should_stop flag. -/
structure PFObs where
  meas : ℚ
  roll_pos : ℚ
  pitch_pos : ℚ
  stop : Bool

/-- Embedding of PeakFinding.execute lines 200-204: the running peak is
np.max of the old peak and the new measurement, and the peak location is
overwritten with the current angles whenever np.isclose(new, peak,
atol=1e-15, rtol=1e-5) holds after that update. -/
def peak_update (s : PFState) (o : PFObs) : PFState :=
  let roll_angle := o.roll_pos - roll_offset
  let pitch_angle := o.pitch_pos - pitch_offset
  let peak1 := np_max s.peak_meas o.meas
  { s with
    peak_meas := some peak1
    peak_loc :=
      if np_isclose o.meas peak1 (1 / 100000) (1 / 1000000000000000) then
        (roll_angle, pitch_angle)
      else s.peak_loc }

/-- Embedding of PeakFinding.execute lines 226-233: if the new
measurement dropped below the previous one by more than curr_tol
nanoamps, flip the jog direction and count a reversal; then record the
measurement as the new previous one. -/
def reversal_update (s : PFState) (o : PFObs) : PFState :=
  let s1 :=
    if o.meas < s.prev_meas - s.curr_tol * (1 / 1000000000) then
      { s with jog_dir := pyFlip s.jog_dir, n_reverse := s.n_reverse + 1, k := s.k + 1 }
    else s
  { s1 with prev_meas := o.meas }

/-- Embedding of PeakFinding.execute lines 237-247: once four reversals
accumulate, reset the reversal count, move both stages to the recorded
peak, switch the active axis, and count a refinement. -/
def axis_switch (s : PFState) : PFState :=
  if 4 ≤ s.n_reverse then
    { s with n_reverse := 0, stageIsRoll := !s.stageIsRoll, n_refine := s.n_refine + 1 }
  else s

/-- Embedding of PeakFinding.execute lines 250-258: once four
refinements accumulate, reset the refinement count and halve both the
step size and the current tolerance; if the halved step is below 0.04 the
loop breaks (true in the second component), otherwise the jog step on
both axes is reprogrammed with the absolute halved step. -/
def refine_update (s : PFState) : PFState × Bool :=
  if 4 ≤ s.n_refine then
    let step1 := s.step_size / 2
    let s1 := { s with n_refine := 0, step_size := step1, curr_tol := s.curr_tol / 2 }
    if step1 < 1 / 25 then (s1, true)
    else ({ s1 with jogRoll := |step1|, jogPitch := |step1| }, false)
  else (s, false)

/-- Embedding of PeakFinding.execute lines 260-267: increment the
iteration counter and stop when it reaches max_meas or the stop flag is
set.  Returns the new state and whether the loop continues. -/
def loop_tail (s : PFState) (o : PFObs) : PFState × Bool :=
  let s1 := { s with i := s.i + 1 }
  if s1.max_meas ≤ s1.i then (s1, false)
  else if o.stop then (s1, false)
  else (s1, true)

/-- One full iteration of the PeakFinding.execute while-loop, in source
order: record the peak, handle a reversal, switch axes at the reversal
threshold, refine at the refinement threshold (possibly breaking), then
the iteration-count and stop-flag checks.  Returns the new state and
whether the loop continues. -/
def pf_step (s : PFState) (o : PFObs) : PFState × Bool :=
  let s1 := axis_switch (reversal_update (peak_update s o) o)
  let r := refine_update s1
  if r.2 then (r.1, false) else loop_tail r.1 o

/-- The state of the peak-search loop just before the first iteration
(PeakFinding.execute lines 174-191), as a function of the Initial Angle
Step, Current Tolerance and Max Samples parameters and of the first
current reading. -/
def pf_init (angle_step threshold : ℚ) (max_meas : Nat) (first_meas : ℚ) : PFState :=
  { stageIsRoll := true
    step_size := angle_step
    curr_tol := threshold
    i := 0
    n_reverse := 0
    n_refine := 0
    k := 0
    jog_dir := 1
    prev_meas := first_meas
    peak_meas := none
    peak_loc := (0, 0)
    jogRoll := |angle_step|
    jogPitch := |angle_step|
    max_meas := max_meas }

/-- Run the peak-search loop for n iterations under an observation
stream; once the loop breaks the state is absorbing. -/
def pf_run (s : PFState) (obs : Nat → PFObs) : Nat → PFState × Bool
  | 0 => (s, true)
  | n + 1 =>
    let r := pf_run s obs n
    if r.2 then pf_step r.1 (obs n) else (r.1, false)

/-- The condition under which the iteration reaches the refinement
threshold: the refinement count after the reversal and axis-switch
blocks of this iteration is at least 4. -/
def refine_triggered (s : PFState) (o : PFObs) : Bool :=
  let nrev1 :=
    if o.meas < s.prev_meas - s.curr_tol * (1 / 1000000000) then s.n_reverse + 1
    else s.n_reverse
  let nref1 := if 4 ≤ nrev1 then s.n_refine + 1 else s.n_refine
  decide (4 ≤ nref1)

/-- A peak-search loop state used as a concrete test fixture: the running
peak is 5 nA at location (0, 0) and no reversal or refinement has
accumulated yet. -/
def pfState1 : PFState :=
  { stageIsRoll := true
    step_size := 1 / 10
    curr_tol := 1 / 2
    i := 0
    n_reverse := 0
    n_refine := 0
    k := 0
    jog_dir := 1
    prev_meas := 5
    peak_meas := some 5
    peak_loc := (0, 0)
    jogRoll := 1 / 10
    jogPitch := 1 / 10
    max_meas := 500 }

/-- A peak-search loop state used as a concrete test fixture: identical
to pfState1 except that four refinements have accumulated, so the next
iteration reaches the refinement threshold. -/
def pfState2 : PFState :=
  { pfState1 with n_refine := 4 }

/-- A concrete observation for the peak-search loop: the new measurement
exactly ties the running peak of pfState1, at stage positions that decode
to the angles (1, 10). -/
def pfObs1 : PFObs :=
  { meas := 5
    roll_pos := 46
    pitch_pos := -227 / 10
    stop := false }

/-- Helper: for a non-negative rational, Python int() truncation agrees
with the floor. -/
theorem pyInt_of_nonneg (x : ℚ) (h : 0 ≤ x) : pyInt x = ⌊x⌋ := by
  simp [pyInt, h]

/-- C5: convert_signed returns pos - floor(pos / 180) * 360 for a
non-negative input and returns a negative input unchanged. -/
theorem convert_signed_spec (pos : ℚ) :
    (0 ≤ pos → convert_signed pos = pos - (⌊pos / 180⌋ : ℚ) * 360) ∧
    (pos < 0 → convert_signed pos = pos) := by
  constructor
  · intro h
    simp [convert_signed, h]
  · intro h
    simp [convert_signed, not_le.mpr h]

/-- Witness for C5 at the concrete inputs 360 and -5. -/
theorem convert_signed_spec_witness :
    convert_signed 360 = 360 - (⌊(360 : ℚ) / 180⌋ : ℚ) * 360 ∧ convert_signed (-5) = -5 :=
  ⟨(convert_signed_spec 360).1 (by norm_num), (convert_signed_spec (-5)).2 (by norm_num)⟩

/-- Helper: the key bracketing facts about k = floor(x / 180) for
non-negative x. -/
theorem convert_signed_floor_bounds (x : ℚ) (h : 0 ≤ x) :
    (0 : ℤ) ≤ ⌊x / 180⌋ ∧ x < 180 * ((⌊x / 180⌋ : ℚ) + 1) := by
  constructor
  · exact Int.floor_nonneg.mpr (by positivity)
  · have h1 := Int.lt_floor_add_one (x / 180)
    have : x / 180 < (⌊x / 180⌋ : ℚ) + 1 := h1
    linarith [(div_lt_iff₀ (by norm_num : (0:ℚ) < 180)).mp this]

/-- C8: convert_signed is idempotent. -/
theorem convert_signed_idempotent (x : ℚ) :
    convert_signed (convert_signed x) = convert_signed x := by
  by_cases h : 0 ≤ x
  · have hb := convert_signed_floor_bounds x h
    rcases eq_or_lt_of_le hb.1 with hk | hk
    · have hfl : ⌊x / 180⌋ = 0 := hk.symm
      simp [convert_signed, h, hfl]
    · have h1 : (1 : ℚ) ≤ (⌊x / 180⌋ : ℚ) := by exact_mod_cast hk
      have hneg : x - (⌊x / 180⌋ : ℚ) * 360 < 0 := by linarith [hb.2]
      rw [show convert_signed x = x - (⌊x / 180⌋ : ℚ) * 360 by simp [convert_signed, h]]
      simp [convert_signed, not_le.mpr hneg]
  · have hx : convert_signed x = x := by simp [convert_signed, h]
    rw [hx, hx]

/-- C9: the result of convert_signed is always strictly below 180, but it
is not confined to the signed range: the non-negative input 360 is mapped
to -360, which is strictly below -180. -/
theorem convert_signed_range :
    (∀ x : ℚ, convert_signed x < 180) ∧ convert_signed 360 = -360 ∧
      convert_signed 360 < -180 := by
  have h360 : convert_signed 360 = -360 := by
    have : (⌊(360 : ℚ) / 180⌋ : ℤ) = 2 := by norm_num
    simp [convert_signed, this]
    norm_num
  refine ⟨?_, h360, by rw [h360]; norm_num⟩
  intro x
  by_cases h : 0 ≤ x
  · have hb := convert_signed_floor_bounds x h
    have h0 : (0 : ℚ) ≤ (⌊x / 180⌋ : ℚ) := by exact_mod_cast hb.1
    rw [show convert_signed x = x - (⌊x / 180⌋ : ℚ) * 360 by simp [convert_signed, h]]
    linarith [hb.2]
  · rw [show convert_signed x = x by simp [convert_signed, h]]
    linarith [not_le.mp h]

/-- C3: the homing wait loop of level_axes is insensitive to the pitch
axis homed flag — as soon as the roll axis reports homed the loop exits,
whatever the pitch flag stream is (here the pitch axis never homes), so
level_axes does not poll until both axes are homed. -/
theorem level_axes_ignores_pitch (ph : Nat → Bool) (rp pp : Nat → ℚ) :
    (level_axes ⟨fun _ => true, ph, rp, pp⟩).homeWaitExit = 0 := rfl

/-- C4 (amended): for a positive step, the arm count programmed by
configure_sweep is floor(abs(stop - start) / step) + 1 — Python int()
truncation, not the ceiling. -/
theorem configure_sweep_arm_count (start stop step delay nplc : ℚ) (pol : String)
    (h : 0 < step) :
    (configure_sweep start stop step delay nplc pol).armCount = ⌊|stop - start| / step⌋ + 1 := by
  have habs : |(stop - start) / step| = |stop - start| / step := by
    rw [abs_div, abs_of_pos h]
  have h0 : (0 : ℚ) ≤ |stop - start| / step + 1 := by positivity
  simp only [configure_sweep]
  rw [habs, pyInt_of_nonneg _ h0, Int.floor_add_one]

/-- Witness for C4 at the spec's example start=0, stop=20, step=0.1. -/
theorem configure_sweep_arm_count_witness :
    (configure_sweep 0 20 (1 / 10) 10 1 "Cathode").armCount = ⌊|(20 : ℚ) - 0| / (1 / 10)⌋ + 1 :=
  configure_sweep_arm_count 0 20 (1 / 10) 10 1 "Cathode" (by norm_num)

/-- C4 counterexample: for start=0, stop=1, step=0.4 the programmed arm
count is 3, while the claimed formula ceil(abs(stop-start)/step) + 1
gives 4. -/
theorem configure_sweep_ceil_counterexample :
    (configure_sweep 0 1 (2 / 5) 10 1 "Cathode").armCount = 3 ∧
      ⌈|(1 : ℚ) - 0| / (2 / 5)⌉ + 1 = 4 := by
  constructor
  · have habs : |((1 : ℚ) - 0) / (2 / 5)| + 1 = 7 / 2 := by
      rw [abs_of_nonneg (by norm_num : (0 : ℚ) ≤ ((1 : ℚ) - 0) / (2 / 5))]
      norm_num
    simp only [configure_sweep, pyInt, habs]
    norm_num
  · have habs : |(1 : ℚ) - 0| / (2 / 5) = 5 / 2 := by
      rw [abs_of_nonneg (by norm_num : (0 : ℚ) ≤ (1 : ℚ) - 0)]
      norm_num
    rw [habs, show (⌈(5 : ℚ) / 2⌉ : ℤ) = 3 from Int.ceil_eq_iff.mpr (by norm_num)]
    norm_num

/-- Helper: the spec's poll loop with the code's np.isclose convergence
test computes exactly the code's poll loop. -/
theorem specPoll_eq_move_poll (env : StageEnv) (targ : ℚ) :
    ∀ fuel t, specPoll isclose_tol env targ fuel t = move_poll env targ fuel t := by
  intro fuel
  induction fuel with
  | zero => intro t; rfl
  | succ f ih =>
    intro t
    simp only [specPoll, move_poll, isclose_tol]
    split
    · rfl
    · exact ih (t + 1)

/-- C1 (amended): move_stage_to behaves exactly as the spec describes —
up to the given number of attempts, each computing the offset from the
normalized current position, issuing the relative move, polling up to 20
times and then re-checking — with the convergence test np.isclose(pos,
target, atol=0.01) (i.e. tolerance 0.01 + 1e-5 * target magnitude), and
an error propagated when every attempt is exhausted. -/
theorem move_stage_to_matches_spec (env : StageEnv) (targ : ℚ) :
    ∀ n t, move_stage_to env targ n t = moveStageToSpec isclose_tol env targ n t := by
  intro n
  induction n with
  | zero => intro t; rfl
  | succ m ih =>
    intro t
    simp only [move_stage_to, moveStageToSpec, specPoll_eq_move_poll, isclose_tol]
    split
    · rfl
    · rw [ih]

/-- C1 counterexample: with the stage position constant at 1000.015 and
target 1000, the distance to the target is always 0.015 > 0.01, so by the
claim every attempt fails and a convergence error is raised; the code
instead returns success on the first attempt, because np.isclose with
atol=0.01 and default rtol=1e-5 accepts 0.015 <= 0.01 + 1e-5 * 1000. -/
theorem move_stage_to_strict_tol_counterexample :
    (move_stage_to ⟨fun _ => 200003 / 200⟩ 1000 3 0).1 = true ∧
      ¬ |(200003 : ℚ) / 200 - 1000| ≤ 1 / 100 := by
  constructor
  · norm_num [move_stage_to, move_poll, np_isclose, abs_le]
  · rw [show (200003 : ℚ) / 200 - 1000 = 3 / 200 by norm_num,
      abs_of_nonneg (by norm_num : (0 : ℚ) ≤ 3 / 200)]
    norm_num

/-- Helper: np.linspace always produces exactly n values. -/
theorem np_linspace_length (start stop : ℚ) (n : Nat) :
    (np_linspace start stop n).length = n := by
  match n with
  | 0 => rfl
  | 1 => rfl
  | m + 2 => simp only [np_linspace, List.length_map, List.length_range]

/-- Helper: for n at least 1 the first linspace value is the start. -/
theorem np_linspace_first (start stop : ℚ) (n : Nat) (h : 1 ≤ n) :
    (np_linspace start stop n)[0]? = some start := by
  match n with
  | 1 => rfl
  | m + 2 =>
    simp only [np_linspace, List.getElem?_map,
      List.getElem?_range (show 0 < m + 2 by omega), Option.map_some']
    norm_num

/-- Helper: for n at least 2 the last linspace value is the stop. -/
theorem np_linspace_last (start stop : ℚ) (n : Nat) (h : 2 ≤ n) :
    (np_linspace start stop n)[n - 1]? = some stop := by
  match n with
  | m + 2 =>
    simp only [np_linspace, show m + 2 - 1 = m + 1 from rfl, List.getElem?_map,
      List.getElem?_range (show m + 1 < m + 2 by omega), Option.map_some']
    have hne : ((m : ℚ) + 1) ≠ 0 := by positivity
    rw [Option.some_inj]
    push_cast
    field_simp

/-- C7 (amended): the sweep-capture tail aborts the trigger, reads the
actual sample count n, drains exactly the n buffered records, and
reconstructs a roll-angle array of exactly n values linearly spaced from
start to stop; the first value is start whenever n is at least 1, and the
last value is stop whenever n is at least 2 (for n = 1 numpy's linspace
returns the single value start). -/
theorem sweep_capture_spec (k : Keithley6487State) (start stop : ℚ) :
    (sweep_capture k start stop).instr.armed = false ∧
    (sweep_capture k start stop).nSamples = k.buf.length ∧
    (sweep_capture k start stop).samples = k.buf ∧
    (sweep_capture k start stop).rollAngles.length = (sweep_capture k start stop).nSamples ∧
    (1 ≤ (sweep_capture k start stop).nSamples →
      (sweep_capture k start stop).rollAngles[0]? = some start) ∧
    (2 ≤ (sweep_capture k start stop).nSamples →
      (sweep_capture k start stop).rollAngles[(sweep_capture k start stop).nSamples - 1]? =
        some stop) := by
  refine ⟨rfl, rfl, rfl, np_linspace_length start stop _, ?_, ?_⟩
  · exact np_linspace_first start stop _
  · exact np_linspace_last start stop _

/-- Witness for C7 at a concrete two-record buffer with start 0, stop 20. -/
theorem sweep_capture_spec_witness :
    (sweep_capture ⟨true, [(1, 2, 3, 4), (5, 6, 7, 8)]⟩ 0 20).instr.armed = false ∧
    (sweep_capture ⟨true, [(1, 2, 3, 4), (5, 6, 7, 8)]⟩ 0 20).nSamples =
      [((1 : ℚ), (2 : ℚ), (3 : ℚ), (4 : ℚ)), (5, 6, 7, 8)].length ∧
    (sweep_capture ⟨true, [(1, 2, 3, 4), (5, 6, 7, 8)]⟩ 0 20).samples =
      [((1 : ℚ), (2 : ℚ), (3 : ℚ), (4 : ℚ)), (5, 6, 7, 8)] ∧
    (sweep_capture ⟨true, [(1, 2, 3, 4), (5, 6, 7, 8)]⟩ 0 20).rollAngles.length =
      (sweep_capture ⟨true, [(1, 2, 3, 4), (5, 6, 7, 8)]⟩ 0 20).nSamples ∧
    (1 ≤ (sweep_capture ⟨true, [(1, 2, 3, 4), (5, 6, 7, 8)]⟩ 0 20).nSamples →
      (sweep_capture ⟨true, [(1, 2, 3, 4), (5, 6, 7, 8)]⟩ 0 20).rollAngles[0]? = some 0) ∧
    (2 ≤ (sweep_capture ⟨true, [(1, 2, 3, 4), (5, 6, 7, 8)]⟩ 0 20).nSamples →
      (sweep_capture ⟨true, [(1, 2, 3, 4), (5, 6, 7, 8)]⟩ 0
          20).rollAngles[(sweep_capture ⟨true, [(1, 2, 3, 4), (5, 6, 7, 8)]⟩ 0 20).nSamples -
          1]? = some 20) :=
  sweep_capture_spec ⟨true, [(1, 2, 3, 4), (5, 6, 7, 8)]⟩ 0 20

/-- C7 counterexample: with a single buffered sample and the sweep
programmed from 0 to 20, the reconstructed angle array is the single
value 0 — its last value is the start, not the stop, so the array is not
spaced between start and stop inclusive. -/
theorem sweep_capture_single_counterexample :
    (sweep_capture ⟨true, [(1, 2, 3, 4)]⟩ 0 20).rollAngles = [0] ∧
      (sweep_capture ⟨true, [(1, 2, 3, 4)]⟩ 0 20).nSamples = 1 ∧ (0 : ℚ) ≠ 20 := by
  refine ⟨rfl, rfl, by norm_num⟩

/-- Helper: reversal_update written as a single conditional. -/
theorem reversal_update_eq (s : PFState) (o : PFObs) :
    reversal_update s o =
      (if o.meas < s.prev_meas - s.curr_tol * (1 / 1000000000) then
        { s with
            jog_dir := pyFlip s.jog_dir
            n_reverse := s.n_reverse + 1
            k := s.k + 1
            prev_meas := o.meas }
      else { s with prev_meas := o.meas }) := by
  simp only [reversal_update]
  split_ifs <;> rfl

/-- Helper: axis_switch written as a single conditional. -/
theorem axis_switch_eq (s : PFState) :
    axis_switch s =
      (if 4 ≤ s.n_reverse then
        { s with n_reverse := 0, stageIsRoll := !s.stageIsRoll, n_refine := s.n_refine + 1 }
      else s) := rfl

/-- Helper: refine_update written as flat conditionals. -/
theorem refine_update_eq (s : PFState) :
    refine_update s =
      (if 4 ≤ s.n_refine then
        (if s.step_size / 2 < 1 / 25 then
          ({ s with n_refine := 0, step_size := s.step_size / 2, curr_tol := s.curr_tol / 2 },
            true)
        else
          ({ s with
              n_refine := 0
              step_size := s.step_size / 2
              curr_tol := s.curr_tol / 2
              jogRoll := |s.step_size / 2|
              jogPitch := |s.step_size / 2| },
            false))
      else (s, false)) := rfl

/-- Helper: pf_step written as the composition of its phases. -/
theorem pf_step_eq (s : PFState) (o : PFObs) :
    pf_step s o =
      (if (refine_update (axis_switch (reversal_update (peak_update s o) o))).2 then
        ((refine_update (axis_switch (reversal_update (peak_update s o) o))).1, false)
      else
        loop_tail (refine_update (axis_switch (reversal_update (peak_update s o) o))).1 o) := rfl

/-- Helper: the state after loop_tail only has its iteration counter
advanced. -/
theorem loop_tail_fst (s : PFState) (o : PFObs) :
    (loop_tail s o).1 = { s with i := s.i + 1 } := by
  simp only [loop_tail]
  split_ifs <;> rfl

/-- Helper: refine_update does not touch the peak record or jog
direction. -/
theorem refine_update_keeps_peak (s : PFState) :
    (refine_update s).1.peak_meas = s.peak_meas ∧ (refine_update s).1.peak_loc = s.peak_loc ∧
      (refine_update s).1.jog_dir = s.jog_dir := by
  rw [refine_update_eq]
  split_ifs <;> exact ⟨rfl, rfl, rfl⟩

/-- Helper: the state reaching the refinement check keeps the step size,
tolerance and programmed jog steps of the iteration entry, and carries
the updated peak record. -/
theorem pre_refine_fields (s : PFState) (o : PFObs) :
    (axis_switch (reversal_update (peak_update s o) o)).step_size = s.step_size ∧
    (axis_switch (reversal_update (peak_update s o) o)).curr_tol = s.curr_tol ∧
    (axis_switch (reversal_update (peak_update s o) o)).jogRoll = s.jogRoll ∧
    (axis_switch (reversal_update (peak_update s o) o)).jogPitch = s.jogPitch ∧
    (axis_switch (reversal_update (peak_update s o) o)).peak_meas =
      some (np_max s.peak_meas o.meas) ∧
    (axis_switch (reversal_update (peak_update s o) o)).peak_loc =
      (if np_isclose o.meas (np_max s.peak_meas o.meas) (1 / 100000) (1 / 1000000000000000) then
        (o.roll_pos - roll_offset, o.pitch_pos - pitch_offset)
      else s.peak_loc) := by
  rw [axis_switch_eq, reversal_update_eq]
  simp only [peak_update]
  split_ifs <;> exact ⟨rfl, rfl, rfl, rfl, rfl, rfl⟩

/-- Helper: the refinement count reaching the refinement check is the one
described by refine_triggered. -/
theorem pre_refine_n_refine (s : PFState) (o : PFObs) :
    refine_triggered s o =
      decide (4 ≤ (axis_switch (reversal_update (peak_update s o) o)).n_refine) := by
  rw [axis_switch_eq, reversal_update_eq]
  simp only [refine_triggered, peak_update]
  split_ifs <;> rfl

/-- C2 (amended): in every iteration of the peak-search loop the running
peak value becomes max(peak, m), so it changes exactly when the new
measurement m is strictly greater; the peak location however is
overwritten with the current angles whenever np.isclose(m, updated peak,
atol=1e-15, rtol=1e-5) holds — in particular an exact tie moves the
location to the newly visited point — and is kept otherwise. -/
theorem pf_peak_update_rule (s : PFState) (o : PFObs) (p : ℚ)
    (h : s.peak_meas = some p) :
    (pf_step s o).1.peak_meas = some (max p o.meas) ∧
    ((pf_step s o).1.peak_meas ≠ s.peak_meas ↔ p < o.meas) ∧
    (pf_step s o).1.peak_loc =
      (if np_isclose o.meas (max p o.meas) (1 / 100000) (1 / 1000000000000000) then
        (o.roll_pos - roll_offset, o.pitch_pos - pitch_offset)
      else s.peak_loc) := by
  have hmax : np_max s.peak_meas o.meas = max p o.meas := by rw [h]; rfl
  obtain ⟨-, -, -, -, hpm0, hpl0⟩ := pre_refine_fields s o
  obtain ⟨hrm, hrl, -⟩ :=
    refine_update_keeps_peak (axis_switch (reversal_update (peak_update s o) o))
  have hpm : (pf_step s o).1.peak_meas = some (np_max s.peak_meas o.meas) := by
    rw [pf_step_eq]
    by_cases hc : (refine_update (axis_switch (reversal_update (peak_update s o) o))).2 = true
    · rw [if_pos hc]
      exact hrm.trans hpm0
    · rw [if_neg hc, loop_tail_fst]
      exact hrm.trans hpm0
  have hpl : (pf_step s o).1.peak_loc =
      (if np_isclose o.meas (np_max s.peak_meas o.meas) (1 / 100000) (1 / 1000000000000000) then
        (o.roll_pos - roll_offset, o.pitch_pos - pitch_offset)
      else s.peak_loc) := by
    rw [pf_step_eq]
    by_cases hc : (refine_update (axis_switch (reversal_update (peak_update s o) o))).2 = true
    · rw [if_pos hc]
      exact hrl.trans hpl0
    · rw [if_neg hc, loop_tail_fst]
      exact hrl.trans hpl0
  refine ⟨hmax ▸ hpm, ?_, hmax ▸ hpl⟩
  rw [hpm, hmax, h, Ne, Option.some_inj]
  constructor
  · intro hne
    by_contra hle
    push_neg at hle
    exact hne (max_eq_left hle)
  · intro hlt heq
    have := max_eq_left_iff.mp heq
    linarith

/-- Witness for C2 at the tie fixture: peak 5 nA, new measurement 5 nA. -/
theorem pf_peak_update_rule_witness :
    (pf_step pfState1 pfObs1).1.peak_meas = some (max 5 pfObs1.meas) ∧
    ((pf_step pfState1 pfObs1).1.peak_meas ≠ pfState1.peak_meas ↔ 5 < pfObs1.meas) ∧
    (pf_step pfState1 pfObs1).1.peak_loc =
      (if np_isclose pfObs1.meas (max 5 pfObs1.meas) (1 / 100000) (1 / 1000000000000000) then
        (pfObs1.roll_pos - roll_offset, pfObs1.pitch_pos - pitch_offset)
      else pfState1.peak_loc) :=
  pf_peak_update_rule pfState1 pfObs1 5 rfl

/-- C2 counterexample: when the new measurement exactly ties the running
peak (5 = 5, not strictly greater), the code still moves the recorded
peak location from (0, 0) to the newly visited (1, 10). -/
theorem pf_peak_tie_counterexample :
    pfState1.peak_meas = some 5 ∧ pfObs1.meas = 5 ∧ pfState1.peak_loc = (0, 0) ∧
      ¬ (5 : ℚ) < 5 ∧ (pf_step pfState1 pfObs1).1.peak_loc = (1, 10) := by
  refine ⟨rfl, rfl, rfl, by norm_num, ?_⟩
  obtain ⟨-, -, -, -, -, hpl0⟩ := pre_refine_fields pfState1 pfObs1
  obtain ⟨-, hrl, -⟩ :=
    refine_update_keeps_peak (axis_switch (reversal_update (peak_update pfState1 pfObs1) pfObs1))
  have hpl : (pf_step pfState1 pfObs1).1.peak_loc =
      (if np_isclose pfObs1.meas (np_max pfState1.peak_meas pfObs1.meas) (1 / 100000)
          (1 / 1000000000000000) then
        (pfObs1.roll_pos - roll_offset, pfObs1.pitch_pos - pitch_offset)
      else pfState1.peak_loc) := by
    rw [pf_step_eq]
    by_cases hc :
        (refine_update (axis_switch (reversal_update (peak_update pfState1 pfObs1) pfObs1))).2 =
          true
    · rw [if_pos hc]
      exact hrl.trans hpl0
    · rw [if_neg hc, loop_tail_fst]
      exact hrl.trans hpl0
  rw [hpl]
  norm_num [pfState1, pfObs1, np_max, np_isclose, roll_offset, pitch_offset]

/-- C6: the step size only changes in an iteration that reaches the
refinement threshold; there the refinement count resets to 0 and both the
step size and the current tolerance are halved; the loop then breaks if
the new step size is below the 0.04 floor and otherwise reprograms the
jog step on both axes with the new step size.  Consequently, for a
positive step size, the step size stays positive and never increases. -/
theorem pf_step_size_monotone (s : PFState) (o : PFObs) (hpos : 0 < s.step_size) :
    0 < (pf_step s o).1.step_size ∧
    (pf_step s o).1.step_size ≤ s.step_size ∧
    (refine_triggered s o = false →
      (pf_step s o).1.step_size = s.step_size ∧
      (pf_step s o).1.curr_tol = s.curr_tol ∧
      (pf_step s o).1.jogRoll = s.jogRoll ∧
      (pf_step s o).1.jogPitch = s.jogPitch) ∧
    (refine_triggered s o = true →
      (pf_step s o).1.n_refine = 0 ∧
      (pf_step s o).1.step_size = s.step_size / 2 ∧
      (pf_step s o).1.curr_tol = s.curr_tol / 2 ∧
      (s.step_size / 2 < 1 / 25 → (pf_step s o).2 = false) ∧
      (1 / 25 ≤ s.step_size / 2 →
        (pf_step s o).1.jogRoll = s.step_size / 2 ∧
        (pf_step s o).1.jogPitch = s.step_size / 2)) := by
  obtain ⟨he1, he2, he3, he4, -, -⟩ := pre_refine_fields s o
  have htrig := pre_refine_n_refine s o
  by_cases htr : 4 ≤ (axis_switch (reversal_update (peak_update s o) o)).n_refine
  · have htt : refine_triggered s o = true := by rw [htrig]; exact decide_eq_true htr
    by_cases hfl : (axis_switch (reversal_update (peak_update s o) o)).step_size / 2 < 1 / 25
    · have hps : pf_step s o =
          ({ axis_switch (reversal_update (peak_update s o) o) with
              n_refine := 0
              step_size := (axis_switch (reversal_update (peak_update s o) o)).step_size / 2
              curr_tol := (axis_switch (reversal_update (peak_update s o) o)).curr_tol / 2 },
            false) := by
        simp only [pf_step_eq, refine_update_eq, if_pos htr, if_pos hfl]
        simp
      rw [hps]
      have hflq : s.step_size / 2 < 1 / 25 := by rw [← he1]; exact hfl
      refine ⟨?_, ?_, ?_, ?_⟩
      · show 0 < (axis_switch (reversal_update (peak_update s o) o)).step_size / 2
        rw [he1]; linarith
      · show (axis_switch (reversal_update (peak_update s o) o)).step_size / 2 ≤ s.step_size
        rw [he1]; linarith
      · intro hcontra
        rw [htt] at hcontra
        exact absurd hcontra (by simp)
      · intro _
        refine ⟨rfl, ?_, ?_, fun _ => rfl, fun hge => absurd hflq (not_lt.mpr hge)⟩
        · show (axis_switch (reversal_update (peak_update s o) o)).step_size / 2 = s.step_size / 2
          rw [he1]
        · show (axis_switch (reversal_update (peak_update s o) o)).curr_tol / 2 = s.curr_tol / 2
          rw [he2]
    · have hps : pf_step s o =
          loop_tail
            { axis_switch (reversal_update (peak_update s o) o) with
                n_refine := 0
                step_size := (axis_switch (reversal_update (peak_update s o) o)).step_size / 2
                curr_tol := (axis_switch (reversal_update (peak_update s o) o)).curr_tol / 2
                jogRoll := |(axis_switch (reversal_update (peak_update s o) o)).step_size / 2|
                jogPitch := |(axis_switch (reversal_update (peak_update s o) o)).step_size / 2| }
            o := by
        simp only [pf_step_eq, refine_update_eq, if_pos htr, if_neg hfl]
        simp
      have habs : |(axis_switch (reversal_update (peak_update s o) o)).step_size / 2| =
          s.step_size / 2 := by
        rw [he1]
        exact abs_of_pos (by linarith)
      have hgeq : ¬ s.step_size / 2 < 1 / 25 := by rw [← he1]; exact hfl
      rw [hps, loop_tail_fst]
      refine ⟨?_, ?_, ?_, ?_⟩
      · show 0 < (axis_switch (reversal_update (peak_update s o) o)).step_size / 2
        rw [he1]; linarith
      · show (axis_switch (reversal_update (peak_update s o) o)).step_size / 2 ≤ s.step_size
        rw [he1]; linarith
      · intro hcontra
        rw [htt] at hcontra
        exact absurd hcontra (by simp)
      · intro _
        refine ⟨rfl, ?_, ?_, fun hcon => absurd hcon hgeq, fun _ => ⟨habs, habs⟩⟩
        · show (axis_switch (reversal_update (peak_update s o) o)).step_size / 2 = s.step_size / 2
          rw [he1]
        · show (axis_switch (reversal_update (peak_update s o) o)).curr_tol / 2 = s.curr_tol / 2
          rw [he2]
  · have htf : refine_triggered s o = false := by rw [htrig]; exact decide_eq_false htr
    have hps : pf_step s o =
        loop_tail (axis_switch (reversal_update (peak_update s o) o)) o := by
      simp only [pf_step_eq, refine_update_eq, if_neg htr]
      simp
    rw [hps, loop_tail_fst]
    refine ⟨?_, ?_, ?_, ?_⟩
    · show 0 < (axis_switch (reversal_update (peak_update s o) o)).step_size
      rw [he1]; exact hpos
    · show (axis_switch (reversal_update (peak_update s o) o)).step_size ≤ s.step_size
      rw [he1]
    · intro _
      exact ⟨he1, he2, he3, he4⟩
    · intro hcontra
      rw [htf] at hcontra
      exact absurd hcontra (by simp)

/-- Witness for C6 at the refinement-threshold fixture pfState2. -/
theorem pf_step_size_monotone_witness :
    0 < (pf_step pfState2 pfObs1).1.step_size ∧
    (pf_step pfState2 pfObs1).1.step_size ≤ pfState2.step_size ∧
    (refine_triggered pfState2 pfObs1 = false →
      (pf_step pfState2 pfObs1).1.step_size = pfState2.step_size ∧
      (pf_step pfState2 pfObs1).1.curr_tol = pfState2.curr_tol ∧
      (pf_step pfState2 pfObs1).1.jogRoll = pfState2.jogRoll ∧
      (pf_step pfState2 pfObs1).1.jogPitch = pfState2.jogPitch) ∧
    (refine_triggered pfState2 pfObs1 = true →
      (pf_step pfState2 pfObs1).1.n_refine = 0 ∧
      (pf_step pfState2 pfObs1).1.step_size = pfState2.step_size / 2 ∧
      (pf_step pfState2 pfObs1).1.curr_tol = pfState2.curr_tol / 2 ∧
      (pfState2.step_size / 2 < 1 / 25 → (pf_step pfState2 pfObs1).2 = false) ∧
      (1 / 25 ≤ pfState2.step_size / 2 →
        (pf_step pfState2 pfObs1).1.jogRoll = pfState2.step_size / 2 ∧
        (pf_step pfState2 pfObs1).1.jogPitch = pfState2.step_size / 2)) :=
  pf_step_size_monotone pfState2 pfObs1 (by simp [pfState2, pfState1])

/-- Helper: one iteration of the peak-search loop either keeps the jog
direction or flips it with jog_dir % 2 + 1. -/
theorem pf_step_jog_dir_cases (s : PFState) (o : PFObs) :
    (pf_step s o).1.jog_dir = s.jog_dir ∨ (pf_step s o).1.jog_dir = pyFlip s.jog_dir := by
  have hj : (axis_switch (reversal_update (peak_update s o) o)).jog_dir = s.jog_dir ∨
      (axis_switch (reversal_update (peak_update s o) o)).jog_dir = pyFlip s.jog_dir := by
    rw [axis_switch_eq, reversal_update_eq]
    simp only [peak_update]
    split_ifs <;> first | exact Or.inl rfl | exact Or.inr rfl
  obtain ⟨-, -, hjd⟩ :=
    refine_update_keeps_peak (axis_switch (reversal_update (peak_update s o) o))
  have hstep : (pf_step s o).1.jog_dir =
      (axis_switch (reversal_update (peak_update s o) o)).jog_dir := by
    rw [pf_step_eq]
    by_cases hc : (refine_update (axis_switch (reversal_update (peak_update s o) o))).2 = true
    · rw [if_pos hc]
      exact hjd
    · rw [if_neg hc, loop_tail_fst]
      exact hjd
  rw [hstep]
  exact hj

/-- C10: the jog direction starts at 1, the flip jog_dir % 2 + 1 is an
involution exchanging 1 and 2, and every state reachable by running the
peak-search loop from its initial state has jog direction 1 or 2. -/
theorem pf_jog_dir_invariant :
    (∀ a t m f, (pf_init a t m f).jog_dir = 1) ∧
    (pyFlip 1 = 2 ∧ pyFlip 2 = 1) ∧
    (∀ a t m f obs n,
      (pf_run (pf_init a t m f) obs n).1.jog_dir = 1 ∨
        (pf_run (pf_init a t m f) obs n).1.jog_dir = 2) := by
  refine ⟨fun a t m f => rfl, ⟨rfl, rfl⟩, ?_⟩
  intro a t m f obs n
  induction n with
  | zero => exact Or.inl rfl
  | succ nn ih =>
    show (if (pf_run (pf_init a t m f) obs nn).2 then
          pf_step (pf_run (pf_init a t m f) obs nn).1 (obs nn)
        else ((pf_run (pf_init a t m f) obs nn).1, false)).1.jog_dir = 1 ∨
      (if (pf_run (pf_init a t m f) obs nn).2 then
          pf_step (pf_run (pf_init a t m f) obs nn).1 (obs nn)
        else ((pf_run (pf_init a t m f) obs nn).1, false)).1.jog_dir = 2
    by_cases hc : (pf_run (pf_init a t m f) obs nn).2 = true
    · rw [if_pos hc]
      rcases pf_step_jog_dir_cases (pf_run (pf_init a t m f) obs nn).1 (obs nn) with hs | hs <;>
        rcases ih with hi | hi <;> rw [hs, hi] <;> simp [pyFlip]
    · rw [if_neg hc]
      exact ih
